import Mathlib

/-!
Verification of the layered annotation overlay engine of a browser PDF
editor against its design document.  The relevant TypeScript
(`src/components/PDFEditor.tsx` and the extended viewer component) is
shallowly embedded below: pure fragments become Lean functions, the
React state updates become explicit state-passing functions, browser
canvas surfaces become rasters given by a pixel function, and calls
into the external PDF/rendering libraries are modelled at their
documented boundary.
-/

/-- Type `OverlayBitmap` from `PDFEditor.tsx`:
`{ dataUrl: string; width: number; height: number }`.  The PNG data URL
is kept as the opaque string the browser produced. -/
structure OverlayBitmap where
  dataUrl : String
  width : Nat
  height : Nat
deriving DecidableEq

/-- Type `PageOverlayState` from `PDFEditor.tsx`: per-page optional composite
and draw bitmaps plus the serialized text-layer HTML.  `none` stands for
the TypeScript `null` / `undefined`. -/
structure PageOverlayState where
  composite : Option OverlayBitmap := none
  draw : Option OverlayBitmap := none
  textHTML : String := ""
deriving DecidableEq

/-- The Overlay Store `overlaysByPage : Record<number, PageOverlayState>`,
embedded as an association list.  A later JS property update shadows an
earlier binding for the same key, which the head-first lookup below
reproduces. -/
abbrev OverlayStore := List (Nat × PageOverlayState)

/-- The property read `prev[i]` on the overlay store (`undefined` = `none`). -/
def lookupStore : OverlayStore → Nat → Option PageOverlayState
  | [], _ => none
  | (k, v) :: rest, i => if i = k then some v else lookupStore rest i

/-- The property write `{ ...prev, [k]: v }` on the overlay store. -/
def updateStore (s : OverlayStore) (k : Nat) (v : PageOverlayState) : OverlayStore :=
  (k, v) :: s

/-- Key test: `i` is currently a key of the store (stored values are objects, hence
always truthy, so the JS `if (prev[i])` test is exactly key presence). -/
def hasKey (s : OverlayStore) (i : Nat) : Bool :=
  (lookupStore s i).isSome

/-- The 1-based page-loop range `for (let i = 1; i <= n; i++)`. -/
def pageRange (n : Nat) : List Nat :=
  (List.range n).map (· + 1)

/-- Body of the reindexing loop of `handleRemovePage`
(`PDFEditor.tsx:324-329`): for `i < removed` the old entry at `i` is
kept, otherwise the entry previously at `i + 1` is pulled down to `i`. -/
def shiftLookup (prev : OverlayStore) (removed i : Nat) : Option PageOverlayState :=
  if i < removed then lookupStore prev i else lookupStore prev (i + 1)

/-- The reindexing pass of `handleRemovePage` (`PDFEditor.tsx:319-332`):
a single pass over `1 .. newPageCount` that builds a fresh mapping
(`const next = {}`), emitting a binding for `i` exactly when the shifted
source entry exists. -/
def reindexOverlays (prev : OverlayStore) (removed newPageCount : Nat) : OverlayStore :=
  (pageRange newPageCount).filterMap
    (fun i => (shiftLookup prev removed i).map (fun v => (i, v)))

/-- A concrete three-page overlay store used by witnesses. -/
def demoStore : OverlayStore :=
  [(1, { textHTML := "p1" }), (2, { textHTML := "p2" }), (3, { textHTML := "p3" })]

/-- An 8-bit RGBA pixel value of a canvas raster. -/
structure RGBA where
  r : Nat
  g : Nat
  b : Nat
  a : Nat
deriving DecidableEq

/-- The fully transparent pixel `clearRect` leaves behind. -/
def RGBA.clear : RGBA := { r := 0, g := 0, b := 0, a := 0 }

/-- A `<canvas>` raster: its pixel dimensions plus the pixel function.
Coordinates outside `[0, width) × [0, height)` are not real pixels. -/
structure Canvas where
  width : Nat
  height : Nat
  pix : Nat → Nat → RGBA

/-- A layer-local pointer position as produced by `getRelativePos`
(`clientX - rect.left`, `clientY - rect.top`); it can be negative when
the pointer has moved left of / above the layer origin. -/
structure Point where
  x : Int
  y : Int
deriving DecidableEq

/-- One editable box of the text-overlay layer, the data behind a
`<div contenteditable>` child of `textOverlayRef`: CSS `left`/`top`,
text content, CSS text color, whether it was created with the note tool
(tinted background, placeholder), the `contenteditable` flag and whether
the element carries the `data-overlay-item` attribute. -/
structure TextBox where
  left : Int
  top : Int
  content : String
  color : String
  noteStyle : Bool
  editable : Bool
  overlayItem : Bool
deriving DecidableEq

/-- The two live per-page layers of the viewer: the drawing canvas and
the ordered children of the text-overlay `div`. -/
structure LiveLayers where
  canvas : Canvas
  boxes : List TextBox

/-- Operation `viewerRef.clearOverlays()`: `clearRect` over the whole canvas and
removal of every text-overlay child. -/
def clearLive (l : LiveLayers) : LiveLayers :=
  { canvas := { l.canvas with pix := fun _ _ => RGBA.clear }, boxes := [] }

/-- An image placed on a PDF page by
`page.drawImage(pngEmbed, { x: 0, y: 0, width: pw, height: ph, opacity: 1 })`;
the embedded PNG is identified by its source data URL, and opacity is
always 1. -/
structure DrawnImage where
  png : String
  x : Nat
  y : Nat
  width : Nat
  height : Nat
deriving DecidableEq

/-- A page of the in-memory `PDFDocument`: its size as reported by
`page.getSize()` plus the images drawn onto its content so far. -/
structure PdfPage where
  width : Nat
  height : Nat
  drawn : List DrawnImage
deriving DecidableEq

/-- The page `pdfDocument.addPage()` appends (pdf-lib default size). -/
def blankPage : PdfPage := { width := 612, height := 792, drawn := [] }

/-- The editor state of `PDFEditor.tsx` after a document has been
loaded: the in-memory `PDFDocument` pages, the tracked `totalPages` and
`currentPage`, the Overlay Store `overlaysByPage`, and the viewer's live
layers. -/
structure EditorState where
  doc : List PdfPage
  totalPages : Nat
  currentPage : Nat
  overlays : OverlayStore
  live : LiveLayers

/-- Handler `saveCurrentPageOverlay`: snapshot the viewer's current overlay into
the store under the current page.  The snapshot comes from the viewer
(`getCurrentOverlayImage` / `getOverlayState`); the surrounding
`try {} catch {}` swallows failures, modelled by `none` (store left
unchanged). -/
def saveCurrentPageOverlay (snap : Option PageOverlayState) (s : EditorState) : EditorState :=
  match snap with
  | some st => { s with overlays := updateStore s.overlays s.currentPage st }
  | none => s

/-- Handler `handleAddPage` (`PDFEditor.tsx:268-296`): append a page via
`addPage()`, re-read `getPageCount()`, jump to the new page, and create
an empty overlay entry keyed at the new final index. -/
def handleAddPage (s : EditorState) : EditorState :=
  let doc := s.doc ++ [blankPage]
  let newPageCount := doc.length
  { s with
    doc := doc
    totalPages := newPageCount
    currentPage := newPageCount
    overlays := updateStore s.overlays newPageCount {} }

/-- Handler `handleRemovePage` (`PDFEditor.tsx:298-346`): refused while the
document has at most one page; otherwise `removePage(currentPage - 1)`,
clamp the current page, and reindex the store with the single fresh
pass. -/
def handleRemovePage (s : EditorState) : EditorState :=
  if s.totalPages ≤ 1 then s
  else
    let doc := s.doc.eraseIdx (s.currentPage - 1)
    let newPageCount := doc.length
    let newCurrentPage := min s.currentPage newPageCount
    { s with
      doc := doc
      totalPages := newPageCount
      currentPage := newCurrentPage
      overlays := reindexOverlays s.overlays s.currentPage newPageCount }

/-- Handler `handlePageNavigation` (`PDFEditor.tsx:253-258`): out-of-range
requests are ignored; otherwise the current page's overlay is saved
before the page switch. -/
def handlePageNavigation (page : Nat) (snap : Option PageOverlayState) (s : EditorState) : EditorState :=
  if page < 1 ∨ s.totalPages < page then s
  else { saveCurrentPageOverlay snap s with currentPage := page }

/-- One iteration of the export loop of `handleDownload`
(`PDFEditor.tsx:181-198`) on the page with 1-based index `i`: when the
stored overlay has a composite with a non-empty data URL, the PNG is
fetched and embedded (`none` reports the `fetch`/`embedPng` rejection,
which aborts the loop) and drawn over the full page at full opacity;
otherwise the page is left as it is. -/
def bakePage (embedOk : String → Bool) (ov : OverlayStore) (i : Nat) (page : PdfPage) : Option PdfPage :=
  match lookupStore ov i with
  | none => some page
  | some st =>
    match st.composite with
    | none => some page
    | some bmp =>
      if bmp.dataUrl = "" then some page
      else if embedOk bmp.dataUrl then
        some { page with drawn := page.drawn ++
          [{ png := bmp.dataUrl, x := 0, y := 0, width := page.width, height := page.height }] }
      else none

/-- The export loop over all pages, mutating the document in place page
by page; the Boolean records whether an embedding failure aborted the
loop (the pages at and after the failure are then left untouched). -/
def bakePages (embedOk : String → Bool) (ov : OverlayStore) : Nat → List PdfPage → List PdfPage × Bool
  | _, [] => ([], false)
  | i, p :: rest =>
    match bakePage embedOk ov i p with
    | none => (p :: rest, true)
    | some p2 =>
      let r := bakePages embedOk ov (i + 1) rest
      (p2 :: r.1, r.2)

/-- Position (0-based, relative to the start of the processed list) of
the first page whose embedding fails; equals the list length when none
fails. -/
def bakeFailIdx (embedOk : String → Bool) (ov : OverlayStore) : Nat → List PdfPage → Nat
  | _, [] => 0
  | i, p :: rest =>
    match bakePage embedOk ov i p with
    | none => 0
    | some _ => bakeFailIdx embedOk ov (i + 1) rest + 1

/-- Outcome of `handleDownload`: the editor state afterwards, whether
the `catch` branch ran (the error is surfaced to the user), and the
serialized document handed to the download, `none` when aborted. -/
structure DownloadResult where
  state : EditorState
  error : Bool
  output : Option (List PdfPage)

/-- Handler `handleDownload` (`PDFEditor.tsx:165-251`) for a loaded document:
save the current page overlay, bake every page's stored composite into
the document, then `save()` the bytes (`saveOk` reports re-serialization
success), reload them as the new in-memory document, clear the live
overlay layers and empty the Overlay Store.  Any rejection inside the
`try` jumps to the `catch`, which only reports the error: the store and
the page counters are left as they were, but images already drawn onto
the in-memory document before the failure persist. -/
def handleDownload (embedOk : String → Bool) (saveOk : Bool)
    (snap : Option PageOverlayState) (s : EditorState) : DownloadResult :=
  let s1 := saveCurrentPageOverlay snap s
  let baked := bakePages embedOk s1.overlays 1 s1.doc
  if baked.2 then
    { state := { s1 with doc := baked.1 }, error := true, output := none }
  else if saveOk then
    { state :=
        { s1 with
          doc := baked.1
          totalPages := baked.1.length
          currentPage := min s1.currentPage baked.1.length
          overlays := []
          live := clearLive s1.live }
      error := false
      output := some baked.1 }
  else
    { state := { s1 with doc := baked.1 }, error := true, output := none }

/-- The editor operations reachable from the UI after a document is
loaded.  `navigate` and `snapshot` carry the overlay snapshot the viewer
would produce at that moment; `download` carries the outcome of the
external embedding and serialization calls. -/
inductive Op where
  | add : Op
  | remove : Op
  | navigate : Nat → Option PageOverlayState → Op
  | snapshot : Option PageOverlayState → Op
  | download : (String → Bool) → Bool → Option PageOverlayState → Op

/-- Dispatch one operation on the editor state. -/
def step (s : EditorState) : Op → EditorState
  | Op.add => handleAddPage s
  | Op.remove => handleRemovePage s
  | Op.navigate p snap => handlePageNavigation p snap s
  | Op.snapshot snap => saveCurrentPageOverlay snap s
  | Op.download embedOk saveOk snap => (handleDownload embedOk saveOk snap s).state

/-- Run a sequence of operations. -/
def runOps (s : EditorState) (ops : List Op) : EditorState :=
  ops.foldl step s

/-- Empty live layers (a fresh canvas and no text boxes). -/
def emptyLive : LiveLayers :=
  { canvas := { width := 1, height := 1, pix := fun _ _ => RGBA.clear }, boxes := [] }

/-- The editor state right after `handleFileUpload` succeeds on an
`n`-page document: page 1 shown, fresh empty overlay store
(`setOverlaysByPage({})`). -/
def initialEditorState (n : Nat) : EditorState :=
  { doc := List.replicate n blankPage
    totalPages := n
    currentPage := 1
    overlays := []
    live := emptyLive }

/-- Well-formedness of a loaded editor state: the tracked page count
matches the in-memory document, at least one page exists, the current
page is valid, and every Overlay Store key is a valid page index. -/
def Wf (s : EditorState) : Prop :=
  s.totalPages = s.doc.length ∧ 1 ≤ s.totalPages ∧
  1 ≤ s.currentPage ∧ s.currentPage ≤ s.totalPages ∧
  ∀ i, hasKey s.overlays i = true → 1 ≤ i ∧ i ≤ s.totalPages

/-- Helper `resizeOverlaysOnPageLoad` (viewer, also the body of the window
`onResize` handler, which runs the identical algorithm plus a CSS-size
update): the wrapper's rendered size gives the targets
`newW = max(1, floor(rect.width))`, `newH = max(1, floor(rect.height))`
(taken here as inputs); when they equal the canvas's current pixel size
the function returns at once; otherwise the raster is copied into a
temporary canvas at its old dimensions, the live canvas is resized
(assigning `canvas.width`/`height` clears it), and the temporary canvas
is stretch-drawn over the full new size.  The browser's smoothing
filter is modelled as nearest-neighbour sampling. -/
def resizeOverlaysOnPageLoad (canvas : Canvas) (newW newH : Nat) : Canvas :=
  if canvas.width = newW ∧ canvas.height = newH then canvas
  else
    let temp : Canvas := { width := canvas.width, height := canvas.height, pix := canvas.pix }
    { width := newW
      height := newH
      pix := fun x y =>
        if x < newW ∧ y < newH then
          temp.pix (x * temp.width / newW) (y * temp.height / newH)
        else RGBA.clear }

/-- The tool ids of the dispatcher.  The source strings are
`select`, `text`, the note tool, `highlight`, `rectangle`, `circle`
and `pen`; the note tool is named `annot` here. -/
inductive Tool where
  | select
  | text
  | annot
  | highlight
  | rectangle
  | circle
  | pen
deriving DecidableEq

/-- Pixel coverage of `fillRect(sx, sy, w, h)`; the canvas draws the
rectangle spanned by the two corners also when `w`/`h` are negative. -/
def fillRectMask (sx sy w h x y : Int) : Bool :=
  decide (min sx (sx + w) ≤ x ∧ x < max sx (sx + w)
    ∧ min sy (sy + h) ≤ y ∧ y < max sy (sy + h))

/-- Pixel coverage of `strokeRect(sx, sy, w, h)` with `lineWidth = 2`:
a one-pixel band on each side of the border. -/
def strokeRectMask (sx sy w h x y : Int) : Bool :=
  decide (min sx (sx + w) - 1 ≤ x ∧ x < max sx (sx + w) + 1
      ∧ min sy (sy + h) - 1 ≤ y ∧ y < max sy (sy + h) + 1)
    && !decide (min sx (sx + w) + 1 ≤ x ∧ x < max sx (sx + w) - 1
      ∧ min sy (sy + h) + 1 ≤ y ∧ y < max sy (sy + h) - 1)

/-- Pixel coverage of the stroked `ellipse` inscribed in the rectangle
`(sx, sy, w, h)` with `lineWidth = 2`, in doubled coordinates to avoid
halves: a band around `(dx·h)² + (dy·w)² = (w·h)²`. -/
def ellipseStrokeMask (sx sy w h x y : Int) : Bool :=
  let dx := 2 * x - (2 * sx + w)
  let dy := 2 * y - (2 * sy + h)
  decide ((dx * dx * h * h + dy * dy * w * w - w * w * h * h).natAbs
    ≤ (8 * w * h).natAbs)

/-- Pixel coverage of a stroked straight segment from `a` to `b` with
`lineWidth = 2`: within one pixel of the segment. -/
def segMask (a b : Point) (x y : Int) : Bool :=
  let ux := b.x - a.x
  let uy := b.y - a.y
  let vx := x - a.x
  let vy := y - a.y
  let cross := ux * vy - uy * vx
  let dot := ux * vx + uy * vy
  let len2 := ux * ux + uy * uy
  decide (cross * cross ≤ len2 ∧ 0 ≤ dot ∧ dot ≤ len2)

/-- The translucent highlight fill `rgba(255, 255, 0, 0.35)`
(`0.35 · 255 ≈ 89`). -/
def highlightFill : RGBA := { r := 255, g := 255, b := 0, a := 89 }

/-- Integer approximation of canvas `source-over` compositing of a
source pixel over a destination pixel. -/
def compOver (s d : RGBA) : RGBA :=
  { r := (s.r * s.a + d.r * (255 - s.a)) / 255
    g := (s.g * s.a + d.g * (255 - s.a)) / 255
    b := (s.b * s.a + d.b * (255 - s.a)) / 255
    a := s.a + d.a * (255 - s.a) / 255 }

/-- The tiny zero-length segment painted on pen mouse-down
(`lineTo(x + 0.01, y + 0.01)` with round caps) so that a click without
movement leaves a visible dot; stroke colors are opaque CSS colors. -/
def drawDot (c : Canvas) (color : RGBA) (p : Point) : Canvas :=
  { c with pix := fun px py =>
      if (px : Int) = p.x ∧ (py : Int) = p.y then color else c.pix px py }

/-- A pen `moveTo(last)`/`lineTo(p)`/`stroke()` segment. -/
def drawSegment (c : Canvas) (color : RGBA) (a b : Point) : Canvas :=
  { c with pix := fun px py =>
      if segMask a b (px : Int) (py : Int) then color else c.pix px py }

/-- The shape-preview redraw of `handleCanvasMouseMove`: `putImageData`
restores the whole canvas to the snapshot `base`, then one shape
spanning `start → cur` is drawn on top: a stroked rectangle, a stroked
ellipse, or the translucent highlight fill. -/
def drawShapePreview (base : Canvas) (tool : Tool) (start cur : Point) (color : RGBA) : Canvas :=
  let w := cur.x - start.x
  let h := cur.y - start.y
  { base with pix := fun px py =>
      if tool = Tool.rectangle then
        (if strokeRectMask start.x start.y w h (px : Int) (py : Int) then color
         else base.pix px py)
      else if tool = Tool.circle then
        (if ellipseStrokeMask start.x start.y w h (px : Int) (py : Int) then color
         else base.pix px py)
      else if tool = Tool.highlight then
        (if fillRectMask start.x start.y w h (px : Int) (py : Int) then
          compOver highlightFill (base.pix px py)
         else base.pix px py)
      else base.pix px py }

/-- The pointer-interaction refs of the viewer: `isDrawing`,
`lastPointRef`, `shapeStartRef`, `baseImageDataRef` and the select-tool
`isDraggingRef`. -/
structure DrawState where
  isDrawing : Bool
  lastPoint : Option Point
  shapeStart : Option Point
  baseImage : Option Canvas
  isDragging : Bool

/-- Handler `handleCanvasMouseDown`: pen begins a stroke and paints the click
dot; rectangle/circle/highlight snapshot the whole raster
(`getImageData(0, 0, w, h)`), record the anchor and start drawing; other
tools ignore the canvas (its pointer events are disabled for them). -/
def handleCanvasMouseDown (tool : Tool) (color : RGBA) (live : Canvas)
    (st : DrawState) (p : Point) : DrawState × Canvas :=
  if tool = Tool.pen then
    ({ st with isDrawing := true, lastPoint := some p }, drawDot live color p)
  else if tool = Tool.rectangle ∨ tool = Tool.circle ∨ tool = Tool.highlight then
    ({ st with baseImage := some live, shapeStart := some p, isDrawing := true }, live)
  else (st, live)

/-- Handler `handleCanvasMouseMove`: ignored unless drawing; pen extends the
stroke from the last point and advances it; the shape tools restore the
snapshot and draw the single preview shape spanning the anchor and the
current point. -/
def handleCanvasMouseMove (tool : Tool) (color : RGBA) (st : DrawState)
    (live : Canvas) (p : Point) : DrawState × Canvas :=
  if st.isDrawing = false then (st, live)
  else if tool = Tool.pen then
    ({ st with lastPoint := some p }, drawSegment live color (st.lastPoint.getD p) p)
  else if tool = Tool.rectangle ∨ tool = Tool.circle ∨ tool = Tool.highlight then
    match st.shapeStart, st.baseImage with
    | some start, some base => (st, drawShapePreview base tool start p color)
    | _, _ => (st, live)
  else (st, live)

/-- Handler `handleCanvasMouseUp` (part_001:461-474): a no-op unless a stroke or
shape drag is in progress and the canvas exists; otherwise it closes the
pen path and resets the drawing refs.  It never touches the select-tool
drag flag. -/
def handleCanvasMouseUp (canvasPresent : Bool) (st : DrawState) : DrawState :=
  if st.isDrawing = false then st
  else if canvasPresent = false then st
  else { st with isDrawing := false, lastPoint := none, shapeStart := none, baseImage := none }

/-- The global listener (part_001:476-484):
`window.addEventListener(mouseup, () => handleCanvasMouseUp())`. -/
def windowMouseUp (canvasPresent : Bool) (st : DrawState) : DrawState :=
  handleCanvasMouseUp canvasPresent st

/-- Handler `handleOverlayMouseUp` (part_001:412-416), attached to the text
overlay element only: ends an in-progress box drag. -/
def handleOverlayMouseUp (st : DrawState) : DrawState :=
  if st.isDragging then { st with isDragging := false } else st

/-- Folding a run of `mousemove` events during one drag. -/
def runMoves (tool : Tool) (color : RGBA) (sc : DrawState × Canvas)
    (ps : List Point) : DrawState × Canvas :=
  ps.foldl (fun sc p => handleCanvasMouseMove tool color sc.1 sc.2 p) sc

/-- A captured ink raster as returned by `getOverlayState`:
`{ dataUrl: canvas.toDataURL(image/png), width, height }`.  The PNG
data URL is modelled losslessly by the raster it encodes. -/
structure CapturedBitmap where
  image : Canvas
  width : Nat
  height : Nat

/-- The viewer-level overlay snapshot `{ draw, textHTML }`.  The
`innerHTML` string serialization of the text layer is modelled by the
box list it encodes (the DOM round-trips the positions, contents,
colors and attributes of the child boxes verbatim); `none` models an
`undefined` field. -/
structure ViewerOverlayState where
  draw : Option CapturedBitmap
  textHTML : Option (List TextBox)

/-- Capture `getOverlayState` (part_001:544-553): capture the ink canvas at its
current pixel size and the text layer's `innerHTML`. -/
def getOverlayState (canvas : Canvas) (boxes : List TextBox) : ViewerOverlayState :=
  { draw := some { image := canvas, width := canvas.width, height := canvas.height }
    textHTML := some boxes }

/-- The restore pass over `[data-overlay-item]` elements: such boxes are
re-marked `contenteditable` (and user-selectable); boxes without the
attribute — in particular every box the tools create — are untouched. -/
def remarkOverlayItem (b : TextBox) : TextBox :=
  if b.overlayItem then { b with editable := true } else b

/-- Restore `applyOverlayState` (part_001:84-122): always clear both layers
first (`clearRect` over the whole canvas and removal of every text
child); on `null` stop there.  Otherwise, when a draw raster with a
non-empty data URL is present, size the canvas to the wrapper's current
rendered dimensions (`max(1, floor(...))`, taken as inputs) and draw
the image scaled to them; when `textHTML` is a string, set it as the
overlay's `innerHTML` and run the re-marking pass. -/
def applyOverlayState (wrapperW wrapperH : Nat) (live : LiveLayers)
    (st : Option ViewerOverlayState) : LiveLayers :=
  let cleared : Canvas := { live.canvas with pix := fun _ _ => RGBA.clear }
  match st with
  | none => { canvas := cleared, boxes := [] }
  | some s =>
    let canvas1 : Canvas :=
      match s.draw with
      | some bmp =>
        let w := max 1 wrapperW
        let h := max 1 wrapperH
        { width := w
          height := h
          pix := fun x y =>
            if x < w ∧ y < h then
              bmp.image.pix (x * bmp.image.width / w) (y * bmp.image.height / h)
            else RGBA.clear }
      | none => cleared
    let boxes1 : List TextBox :=
      match s.textHTML with
      | some bs => bs.map remarkOverlayItem
      | none => []
    { canvas := canvas1, boxes := boxes1 }

/-- The round trip `setOverlayState(getOverlayState())` on the same
page at the same zoom: on capture the canvas is sized to the wrapper,
so the wrapper dimensions at restore time are the canvas's own. -/
def restoreAfterCapture (c : Canvas) (bs : List TextBox) : LiveLayers :=
  applyOverlayState c.width c.height { canvas := c, boxes := bs }
    (some (getOverlayState c bs))

/-- A small concrete canvas with a diagonal mark, used by witnesses. -/
def demoCanvas : Canvas :=
  { width := 4
    height := 4
    pix := fun x y => if x = y then { r := 9, g := 9, b := 9, a := 255 } else RGBA.clear }

/-- An opaque stroke color. -/
def demoColor : RGBA := { r := 255, g := 0, b := 0, a := 255 }

/-- The idle interaction state. -/
def demoIdleState : DrawState :=
  { isDrawing := false
    lastPoint := none
    shapeStart := none
    baseImage := none
    isDragging := false }

/-- An interaction state with both a stroke and a box drag in
progress. -/
def demoDragState : DrawState :=
  { isDrawing := true
    lastPoint := some { x := 1, y := 2 }
    shapeStart := none
    baseImage := none
    isDragging := true }

/-- Three concrete text/note boxes; none carries `data-overlay-item`,
like every box the tools create. -/
def demoBoxes : List TextBox :=
  [{ left := 50, top := 50, content := "Hi", color := "#111827", noteStyle := true, editable := true, overlayItem := false },
   { left := 10, top := 80, content := "one", color := "#000000", noteStyle := false, editable := true, overlayItem := false },
   { left := 0, top := 0, content := "two", color := "#FFFFFF", noteStyle := false, editable := true, overlayItem := false }]

/-- A viewer snapshot holding ink and the three demo boxes. -/
def demoViewerState : ViewerOverlayState :=
  { draw := some { image := demoCanvas, width := 4, height := 4 }
    textHTML := some demoBoxes }

/-- Live layers holding the demo canvas and boxes. -/
def demoLive : LiveLayers := { canvas := demoCanvas, boxes := demoBoxes }

/-- Live layers with the same canvas dimensions but different
content. -/
def demoLive2 : LiveLayers :=
  { canvas := { width := 4, height := 4, pix := fun _ _ => demoColor }, boxes := [] }

/-- A page size used by concrete witness documents. -/
def demoPage : PdfPage := { width := 10, height := 20, drawn := [] }

/-- A 2-page document whose stored overlays carry composites for both
pages; used to exercise the export path. -/
def demoExportState : EditorState :=
  { doc := [demoPage, demoPage]
    totalPages := 2
    currentPage := 1
    overlays :=
      [(1, { composite := some { dataUrl := "a", width := 3, height := 3 } }),
       (2, { composite := some { dataUrl := "b", width := 3, height := 3 } })]
    live := emptyLive }

/-- An embedding outcome that succeeds only for page 1's data URL. -/
def demoEmbedFailB (d : String) : Bool := d == "a"

/-- An embedding outcome that always succeeds. -/
def demoEmbedOk : String → Bool := fun _ => true

theorem hasKey_updateStore (s : OverlayStore) (k : Nat) (v : PageOverlayState) (i : Nat)
    (h : hasKey (updateStore s k v) i = true) : i = k ∨ hasKey s i = true := by
  by_cases hik : i = k
  · exact Or.inl hik
  · right
    simpa [hasKey, updateStore, lookupStore, hik] using h

theorem mem_pageRange (n j : Nat) : j ∈ pageRange n ↔ 1 ≤ j ∧ j ≤ n := by
  simp only [pageRange, List.mem_map, List.mem_range]
  constructor
  · rintro ⟨i, hi, rfl⟩
    omega
  · rintro ⟨h1, h2⟩
    exact ⟨j - 1, by omega, by omega⟩

theorem pageRange_nodup (n : Nat) : (pageRange n).Nodup :=
  List.Nodup.map (fun _ _ h => by omega) (List.nodup_range n)

theorem lookupStore_filterMap (f : Nat → Option PageOverlayState) (l : List Nat)
    (hl : l.Nodup) (j : Nat) :
    lookupStore (l.filterMap (fun i => (f i).map (fun v => (i, v)))) j
      = if j ∈ l then f j else none := by
  induction l with
  | nil => simp [lookupStore]
  | cons a l ih =>
    obtain ⟨ha, hl'⟩ := List.nodup_cons.mp hl
    by_cases hja : j = a
    · subst hja
      cases hfa : f j with
      | none =>
        simp only [List.filterMap_cons, hfa, Option.map_none']
        rw [ih hl', if_neg (fun h => ha h), if_pos (List.mem_cons_self _ _)]
      | some v =>
        simp only [List.filterMap_cons, hfa, Option.map_some']
        simp [lookupStore, hfa]
    · cases hfa : f a with
      | none =>
        simp only [List.filterMap_cons, hfa, Option.map_none']
        rw [ih hl']
        by_cases hj : j ∈ l
        · rw [if_pos hj, if_pos (List.mem_cons_of_mem _ hj)]
        · rw [if_neg hj, if_neg (fun h => by
            rcases List.mem_cons.mp h with h | h
            · exact hja h
            · exact hj h)]
      | some v =>
        simp only [List.filterMap_cons, hfa, Option.map_some']
        simp only [lookupStore, if_neg hja]
        rw [ih hl']
        by_cases hj : j ∈ l
        · rw [if_pos hj, if_pos (List.mem_cons_of_mem _ hj)]
        · rw [if_neg hj, if_neg (fun h => by
            rcases List.mem_cons.mp h with h | h
            · exact hja h
            · exact hj h)]

/-- Lookup characterization of the reindexing pass. -/
theorem lookup_reindexOverlays (prev : OverlayStore) (removed newPageCount j : Nat) :
    lookupStore (reindexOverlays prev removed newPageCount) j
      = if 1 ≤ j ∧ j ≤ newPageCount then shiftLookup prev removed j else none := by
  rw [reindexOverlays, lookupStore_filterMap _ _ (pageRange_nodup _)]
  by_cases h : 1 ≤ j ∧ j ≤ newPageCount
  · rw [if_pos ((mem_pageRange _ _).mpr h), if_pos h]
  · rw [if_neg (fun hm => h ((mem_pageRange _ _).mp hm)), if_neg h]

/-- C1: on page removal at 1-based index `r` from a document with `n`
pages (`1 ≤ r ≤ n`), the fresh store built by the single reindexing pass
of `handleRemovePage` preserves every entry below `r` unchanged, replaces
every entry at `r ≤ i ≤ newTotalPages = n - 1` by the entry previously at
`i + 1`, and the slot at the old final index `n` is dropped (no binding
remains there). -/
theorem C1_removal_reindex (prev : OverlayStore) (r n i : Nat)
    (h1 : 1 ≤ r) (h2 : r ≤ n) (h3 : 1 ≤ i) (h4 : i ≤ n - 1) :
    lookupStore (reindexOverlays prev r (n - 1)) i
        = (if i < r then lookupStore prev i else lookupStore prev (i + 1))
      ∧ lookupStore (reindexOverlays prev r (n - 1)) n = none := by
  constructor
  · rw [lookup_reindexOverlays, if_pos ⟨h3, h4⟩, shiftLookup]
  · rw [lookup_reindexOverlays, if_neg (by omega)]

/-- Witness for C1: removal of page 2 out of 3 shifts page 3's entry to
index 2 and drops the binding at index 3. -/
theorem C1_removal_reindex_witness :
    (lookupStore (reindexOverlays demoStore 2 (3 - 1)) 2
        = (if 2 < 2 then lookupStore demoStore 2 else lookupStore demoStore (2 + 1))
      ∧ lookupStore (reindexOverlays demoStore 2 (3 - 1)) 3 = none) :=
  C1_removal_reindex demoStore 2 3 2 (by decide) (by decide) (by decide) (by decide)

theorem hasKey_reindexOverlays (prev : OverlayStore) (removed m i : Nat)
    (h : hasKey (reindexOverlays prev removed m) i = true) : 1 ≤ i ∧ i ≤ m := by
  by_contra hc
  rw [hasKey, lookup_reindexOverlays, if_neg hc] at h
  simp at h

theorem length_eraseIdx_pdf (l : List PdfPage) (i : Nat) (h : i < l.length) :
    (l.eraseIdx i).length = l.length - 1 := by
  induction l generalizing i with
  | nil => simp at h
  | cons a l ih =>
    cases i with
    | zero => simp [List.eraseIdx]
    | succ i =>
      simp only [List.eraseIdx, List.length_cons]
      rw [ih i (by simpa using h)]
      simp only [List.length_cons] at h
      omega

theorem bakePages_length (embedOk : String → Bool) (ov : OverlayStore)
    (i : Nat) (l : List PdfPage) : ((bakePages embedOk ov i l).1).length = l.length := by
  induction l generalizing i with
  | nil => rfl
  | cons p rest ih =>
    cases h : bakePage embedOk ov i p with
    | none => simp [bakePages, h]
    | some p2 => simp [bakePages, h, ih (i + 1)]

theorem bakePages_untouched (embedOk : String → Bool) (ov : OverlayStore)
    (l : List PdfPage) (i j : Nat)
    (hfail : (bakePages embedOk ov i l).2 = true)
    (hidx : bakeFailIdx embedOk ov i l ≤ j) :
    (bakePages embedOk ov i l).1[j]? = l[j]? := by
  induction l generalizing i j with
  | nil => simp [bakePages] at hfail
  | cons p rest ih =>
    cases h : bakePage embedOk ov i p with
    | none => simp [bakePages, h]
    | some p2 =>
      simp only [bakePages, h, bakeFailIdx] at hfail hidx ⊢
      cases j with
      | zero => omega
      | succ j =>
        simp only [List.getElem?_cons_succ]
        exact ih (i + 1) j hfail (by omega)

theorem wf_saveCurrentPageOverlay (snap : Option PageOverlayState) (s : EditorState)
    (h : Wf s) : Wf (saveCurrentPageOverlay snap s) := by
  obtain ⟨h1, h2, h3, h4, h5⟩ := h
  cases snap with
  | none => exact ⟨h1, h2, h3, h4, h5⟩
  | some st =>
    refine ⟨h1, h2, h3, h4, ?_⟩
    intro i hi
    rcases hasKey_updateStore _ _ _ _ hi with rfl | hi'
    · exact ⟨h3, h4⟩
    · exact h5 i hi'

theorem wf_handleAddPage (s : EditorState) (h : Wf s) : Wf (handleAddPage s) := by
  obtain ⟨h1, h2, h3, h4, h5⟩ := h
  refine ⟨rfl, ?_, ?_, ?_, ?_⟩
  · show 1 ≤ (s.doc ++ [blankPage]).length
    simp
  · show 1 ≤ (s.doc ++ [blankPage]).length
    simp
  · exact le_refl _
  · intro i hi
    have hi0 : hasKey (updateStore s.overlays (s.doc ++ [blankPage]).length {}) i = true := hi
    rcases hasKey_updateStore _ _ _ _ hi0 with rfl | hi'
    · exact ⟨by simp, le_refl _⟩
    · obtain ⟨hi1, hi2⟩ := h5 i hi'
      refine ⟨hi1, ?_⟩
      show i ≤ (s.doc ++ [blankPage]).length
      simp only [List.length_append, List.length_cons, List.length_nil]
      omega

theorem wf_handleRemovePage (s : EditorState) (h : Wf s) : Wf (handleRemovePage s) := by
  obtain ⟨h1, h2, h3, h4, h5⟩ := h
  by_cases hg : s.totalPages ≤ 1
  · simp only [handleRemovePage, if_pos hg]
    exact ⟨h1, h2, h3, h4, h5⟩
  · simp only [handleRemovePage, if_neg hg]
    have hlen : (s.doc.eraseIdx (s.currentPage - 1)).length = s.doc.length - 1 :=
      length_eraseIdx_pdf _ _ (by omega)
    refine ⟨rfl, ?_, ?_, ?_, ?_⟩
    · show 1 ≤ (s.doc.eraseIdx (s.currentPage - 1)).length
      omega
    · show 1 ≤ min s.currentPage (s.doc.eraseIdx (s.currentPage - 1)).length
      refine le_min h3 ?_
      omega
    · exact min_le_right _ _
    · intro i hi
      have hi0 : hasKey (reindexOverlays s.overlays s.currentPage
          (s.doc.eraseIdx (s.currentPage - 1)).length) i = true := hi
      exact hasKey_reindexOverlays _ _ _ _ hi0

theorem wf_handleDownload (embedOk : String → Bool) (saveOk : Bool)
    (snap : Option PageOverlayState) (s : EditorState) (h : Wf s) :
    Wf (handleDownload embedOk saveOk snap s).state := by
  have hw := wf_saveCurrentPageOverlay snap s h
  obtain ⟨w1, w2, w3, w4, w5⟩ := hw
  have hlen : ((bakePages embedOk (saveCurrentPageOverlay snap s).overlays 1
      (saveCurrentPageOverlay snap s).doc).1).length
      = (saveCurrentPageOverlay snap s).doc.length := bakePages_length _ _ _ _
  simp only [handleDownload]
  by_cases hb : (bakePages embedOk (saveCurrentPageOverlay snap s).overlays 1
      (saveCurrentPageOverlay snap s).doc).2 = true
  · rw [if_pos hb]
    exact ⟨w1.trans hlen.symm, w2, w3, w4, w5⟩
  · rw [if_neg hb]
    by_cases hs2 : saveOk = true
    · rw [if_pos hs2]
      refine ⟨rfl, ?_, ?_, ?_, ?_⟩
      · show 1 ≤ ((bakePages embedOk (saveCurrentPageOverlay snap s).overlays 1
            (saveCurrentPageOverlay snap s).doc).1).length
        omega
      · show 1 ≤ min (saveCurrentPageOverlay snap s).currentPage
            ((bakePages embedOk (saveCurrentPageOverlay snap s).overlays 1
              (saveCurrentPageOverlay snap s).doc).1).length
        exact le_min w3 (by omega)
      · exact min_le_right _ _
      · intro i hi
        have hi0 : hasKey ([] : OverlayStore) i = true := hi
        simp [hasKey, lookupStore] at hi0
    · rw [if_neg hs2]
      exact ⟨w1.trans hlen.symm, w2, w3, w4, w5⟩

theorem wf_step (s : EditorState) (op : Op) (h : Wf s) : Wf (step s op) := by
  cases op with
  | add => exact wf_handleAddPage s h
  | remove => exact wf_handleRemovePage s h
  | navigate p snap =>
    simp only [step, handlePageNavigation]
    by_cases hg : p < 1 ∨ s.totalPages < p
    · rw [if_pos hg]
      exact h
    · rw [if_neg hg]
      obtain ⟨hp1, hp2⟩ := not_or.mp hg
      obtain ⟨w1, w2, w3, w4, w5⟩ := wf_saveCurrentPageOverlay snap s h
      refine ⟨w1, w2, ?_, ?_, w5⟩
      · show 1 ≤ p
        omega
      · show p ≤ (saveCurrentPageOverlay snap s).totalPages
        have hts : (saveCurrentPageOverlay snap s).totalPages = s.totalPages := by
          cases snap <;> rfl
        omega
  | snapshot snap => exact wf_saveCurrentPageOverlay snap s h
  | download embedOk saveOk snap => exact wf_handleDownload embedOk saveOk snap s h

theorem wf_runOps (s : EditorState) (ops : List Op) (h : Wf s) : Wf (runOps s ops) := by
  induction ops generalizing s with
  | nil => exact h
  | cons op ops ih => exact ih (step s op) (wf_step s op h)

theorem wf_initialEditorState (n : Nat) (h : 1 ≤ n) : Wf (initialEditorState n) := by
  refine ⟨?_, ?_, le_refl 1, ?_, ?_⟩
  · simp [initialEditorState]
  · simpa [initialEditorState] using h
  · simpa [initialEditorState] using h
  · intro i hi
    simp [initialEditorState, hasKey, lookupStore] at hi

/-- C2 counterexample: on a freshly loaded 1-page document (empty
operation sequence) the Overlay Store is created empty, so page 1 lies
in `1 .. totalPages` but is not a key of the store: the key set is not
exactly `{1 .. totalPages}`. -/
theorem C2_counterexample :
    hasKey (runOps (initialEditorState 1) []).overlays 1 = false
      ∧ 1 ≤ (runOps (initialEditorState 1) []).totalPages :=
  ⟨rfl, le_refl 1⟩

/-- C2 (amended): for every sequence of editor operations (page
insertions and removals included) from a freshly loaded document, every
key of the Overlay Store lies within `{1 .. totalPages}` — no stale key
beyond the current page count ever exists.  (The key set is in general a
proper subset: entries are only created by page insertion and by
overlay capture.) -/
theorem C2_keys_bounded (n : Nat) (ops : List Op) (i : Nat) (hn : 1 ≤ n)
    (hk : hasKey (runOps (initialEditorState n) ops).overlays i = true) :
    1 ≤ i ∧ i ≤ (runOps (initialEditorState n) ops).totalPages :=
  (wf_runOps _ ops (wf_initialEditorState n hn)).2.2.2.2 i hk

/-- Witness for C2 (amended): after adding a page to a 1-page document
the store has key 2, which is within the new page count. -/
theorem C2_keys_bounded_witness :
    1 ≤ 2 ∧ 2 ≤ (runOps (initialEditorState 1) [Op.add]).totalPages :=
  C2_keys_bounded 1 [Op.add] 2 (le_refl 1) (by decide)

/-- C10: removing a page while the document has exactly one page is
refused as a complete no-op (document, page counters and Overlay Store
all unchanged), and every modelled operation preserves a positive page
count from any well-formed loaded state. -/
theorem C10_remove_guard (s : EditorState) (ops : List Op)
    (h1 : s.totalPages = 1) (h2 : Wf s) :
    handleRemovePage s = s ∧ 1 ≤ (runOps s ops).totalPages := by
  constructor
  · rw [handleRemovePage, if_pos (by omega)]
  · exact (wf_runOps s ops h2).2.1

/-- Witness for C10 on a freshly loaded 1-page document, followed by an
insertion and a removal. -/
theorem C10_remove_guard_witness :
    handleRemovePage (initialEditorState 1) = initialEditorState 1
      ∧ 1 ≤ (runOps (initialEditorState 1) [Op.add, Op.remove]).totalPages :=
  C10_remove_guard (initialEditorState 1) [Op.add, Op.remove] rfl
    (wf_initialEditorState 1 (le_refl 1))

/-- C3 counterexample: with composites stored for both pages of a
2-page document and an embedding that fails on page 2's data URL, the
export errors out, yet the in-memory document differs from the one
before the export: page 1's composite has already been drawn
(committed) onto its page content, contradicting the claim that no
pages are committed and state is unchanged on error. -/
theorem C3_counterexample :
    (handleDownload demoEmbedFailB true none demoExportState).error = true
      ∧ (handleDownload demoEmbedFailB true none demoExportState).state.doc
          ≠ demoExportState.doc := by
  decide

/-- C3 (amended): when the export fails (embedding or re-serialization),
the run is aborted and the error surfaced: no serialized output is
produced, the Overlay Store is exactly the post-snapshot store (never
cleared), the page counters and the live layers are unchanged, and on an
embedding failure every page at or after the first failing page is left
untouched — but pages before the failing one keep the images already
drawn onto the in-memory document before the failure. -/
theorem C3_export_failure (embedOk : String → Bool) (saveOk : Bool)
    (snap : Option PageOverlayState) (s : EditorState) (j : Nat)
    (h : (handleDownload embedOk saveOk snap s).error = true) :
    (handleDownload embedOk saveOk snap s).output = none ∧
    (handleDownload embedOk saveOk snap s).state.overlays
      = (saveCurrentPageOverlay snap s).overlays ∧
    (handleDownload embedOk saveOk snap s).state.totalPages = s.totalPages ∧
    (handleDownload embedOk saveOk snap s).state.currentPage = s.currentPage ∧
    (handleDownload embedOk saveOk snap s).state.live = s.live ∧
    (handleDownload embedOk saveOk snap s).state.doc
      = (bakePages embedOk (saveCurrentPageOverlay snap s).overlays 1 s.doc).1 ∧
    ((bakePages embedOk (saveCurrentPageOverlay snap s).overlays 1 s.doc).2 = true →
      bakeFailIdx embedOk (saveCurrentPageOverlay snap s).overlays 1 s.doc ≤ j →
      (bakePages embedOk (saveCurrentPageOverlay snap s).overlays 1 s.doc).1[j]?
        = s.doc[j]?) := by
  have hdoc : (saveCurrentPageOverlay snap s).doc = s.doc := by cases snap <;> rfl
  have htot : (saveCurrentPageOverlay snap s).totalPages = s.totalPages := by
    cases snap <;> rfl
  have hcur : (saveCurrentPageOverlay snap s).currentPage = s.currentPage := by
    cases snap <;> rfl
  have hlive : (saveCurrentPageOverlay snap s).live = s.live := by cases snap <;> rfl
  revert h
  simp only [handleDownload, hdoc]
  by_cases hb : (bakePages embedOk (saveCurrentPageOverlay snap s).overlays 1 s.doc).2 = true
  · rw [if_pos hb]
    intro _
    refine ⟨rfl, rfl, htot, hcur, hlive, rfl, ?_⟩
    intro _ hidx
    exact bakePages_untouched _ _ _ _ _ hb hidx
  · rw [if_neg hb]
    by_cases hs2 : saveOk = true
    · rw [if_pos hs2]
      intro habs
      simp at habs
    · rw [if_neg hs2]
      intro _
      refine ⟨rfl, rfl, htot, hcur, hlive, rfl, ?_⟩
      intro hb2
      exact absurd hb2 hb

/-- Witness for C3 (amended) at the failing 2-page export: no output,
page counters unchanged, and the page at the failing index untouched. -/
theorem C3_export_failure_witness :
    (handleDownload demoEmbedFailB true none demoExportState).output = none
      ∧ (handleDownload demoEmbedFailB true none demoExportState).state.totalPages
          = demoExportState.totalPages
      ∧ (bakePages demoEmbedFailB (saveCurrentPageOverlay none demoExportState).overlays 1
          demoExportState.doc).1[1]? = demoExportState.doc[1]? := by
  have H := C3_export_failure demoEmbedFailB true none demoExportState 1 (by decide)
  exact ⟨H.1, H.2.2.1, H.2.2.2.2.2.2 (by decide) (by decide)⟩

/-- C4: whenever `handleDownload` completes without error (every page
baked and the document re-serialized), the Overlay Store is emptied and
the live ink and text layers are reset: every store lookup yields
nothing, the box list is empty and every canvas pixel is transparent —
the user continues on a new empty overlay. -/
theorem C4_export_success_clears (embedOk : String → Bool) (saveOk : Bool)
    (snap : Option PageOverlayState) (s : EditorState) (i x y : Nat)
    (h : (handleDownload embedOk saveOk snap s).error = false) :
    lookupStore (handleDownload embedOk saveOk snap s).state.overlays i = none ∧
    (handleDownload embedOk saveOk snap s).state.live.boxes = [] ∧
    (handleDownload embedOk saveOk snap s).state.live.canvas.pix x y = RGBA.clear := by
  revert h
  simp only [handleDownload]
  by_cases hb : (bakePages embedOk (saveCurrentPageOverlay snap s).overlays 1
      (saveCurrentPageOverlay snap s).doc).2 = true
  · rw [if_pos hb]
    intro habs
    simp at habs
  · rw [if_neg hb]
    by_cases hs2 : saveOk = true
    · rw [if_pos hs2]
      intro _
      exact ⟨rfl, rfl, rfl⟩
    · rw [if_neg hs2]
      intro habs
      simp at habs

/-- Witness for C4: a successful export of the 2-page demo document. -/
theorem C4_export_success_clears_witness :
    lookupStore (handleDownload demoEmbedOk true none demoExportState).state.overlays 1 = none ∧
    (handleDownload demoEmbedOk true none demoExportState).state.live.boxes = [] ∧
    (handleDownload demoEmbedOk true none demoExportState).state.live.canvas.pix 0 0
      = RGBA.clear :=
  C4_export_success_clears demoEmbedOk true none demoExportState 1 0 0 (by decide)

theorem resize_pix (c : Canvas) (newW newH x y : Nat)
    (hne : ¬(c.width = newW ∧ c.height = newH)) (hx : x < newW) (hy : y < newH) :
    (resizeOverlaysOnPageLoad c newW newH).pix x y
      = c.pix (x * c.width / newW) (y * c.height / newH) := by
  rw [resizeOverlaysOnPageLoad, if_neg hne]
  show (if x < newW ∧ y < newH then
      c.pix (x * c.width / newW) (y * c.height / newH)
    else RGBA.clear) = _
  rw [if_pos ⟨hx, hy⟩]

/-- C5: resizing the ink surface is skipped entirely when the old and
new pixel dimensions coincide (the raster is unchanged); otherwise the
live surface takes the new dimensions and every new pixel is sampled
from the raster captured into the temporary surface (the stretch-draw),
and under integer upscaling every previously drawn pixel value remains
visible at its scaled position — content is scaled, never erased. -/
theorem C5_resize_preserves (c : Canvas) (newW newH x y u v kw kh : Nat) :
    (c.width = newW → c.height = newH → resizeOverlaysOnPageLoad c newW newH = c) ∧
    (¬(c.width = newW ∧ c.height = newH) →
      (resizeOverlaysOnPageLoad c newW newH).width = newW ∧
      (resizeOverlaysOnPageLoad c newW newH).height = newH ∧
      (x < newW → y < newH →
        (resizeOverlaysOnPageLoad c newW newH).pix x y
          = c.pix (x * c.width / newW) (y * c.height / newH))) ∧
    (¬(c.width = newW ∧ c.height = newH) →
      newW = kw * c.width → newH = kh * c.height → 1 ≤ kw → 1 ≤ kh →
      u < c.width → v < c.height →
      (resizeOverlaysOnPageLoad c newW newH).pix (u * kw) (v * kh) = c.pix u v) := by
  refine ⟨?_, ?_, ?_⟩
  · intro h1 h2
    rw [resizeOverlaysOnPageLoad, if_pos ⟨h1, h2⟩]
  · intro hne
    refine ⟨?_, ?_, ?_⟩
    · rw [resizeOverlaysOnPageLoad, if_neg hne]
    · rw [resizeOverlaysOnPageLoad, if_neg hne]
    · intro hx hy
      exact resize_pix c newW newH x y hne hx hy
  · intro hne hw hh hkw hkh hu hv
    have hx2 : u * kw < newW := by
      have h3 := Nat.mul_lt_mul_of_pos_right hu (show 0 < kw by omega)
      rw [hw, Nat.mul_comm kw c.width]
      exact h3
    have hy2 : v * kh < newH := by
      have h3 := Nat.mul_lt_mul_of_pos_right hv (show 0 < kh by omega)
      rw [hh, Nat.mul_comm kh c.height]
      exact h3
    rw [resize_pix c newW newH _ _ hne hx2 hy2, hw, hh]
    have e1 : u * kw * c.width / (kw * c.width) = u := by
      rw [Nat.mul_assoc]
      exact Nat.mul_div_cancel u (Nat.mul_pos (by omega) (by omega))
    have e2 : v * kh * c.height / (kh * c.height) = v := by
      rw [Nat.mul_assoc]
      exact Nat.mul_div_cancel v (Nat.mul_pos (by omega) (by omega))
    rw [e1, e2]

/-- Witness for C5: a 4×4 canvas upscaled to 8×8 keeps its content
(sampled and at the scaled position), and resizing to the same 4×4 size
is a no-op. -/
theorem C5_resize_preserves_witness :
    (resizeOverlaysOnPageLoad demoCanvas 8 8).pix 2 2
        = demoCanvas.pix (2 * demoCanvas.width / 8) (2 * demoCanvas.height / 8)
      ∧ (resizeOverlaysOnPageLoad demoCanvas 8 8).pix (1 * 2) (1 * 2) = demoCanvas.pix 1 1
      ∧ resizeOverlaysOnPageLoad demoCanvas 4 4 = demoCanvas := by
  have H := C5_resize_preserves demoCanvas 8 8 2 2 1 1 2 2
  have H2 := C5_resize_preserves demoCanvas 4 4 2 2 1 1 2 2
  exact ⟨(H.2.1 (by decide)).2.2 (by decide) (by decide),
    H.2.2 (by decide) (by decide) (by decide) (by decide) (by decide) (by decide) (by decide),
    H2.1 (by decide) (by decide)⟩

theorem runMoves_shape (tool : Tool) (color : RGBA) (anchor : Point) (base : Canvas)
    (st : DrawState)
    (ht : tool = Tool.rectangle ∨ tool = Tool.circle ∨ tool = Tool.highlight)
    (h1 : st.isDrawing = true) (h2 : st.shapeStart = some anchor)
    (h3 : st.baseImage = some base) :
    ∀ (ps : List Point) (p : Point) (c : Canvas),
      runMoves tool color (st, c) (ps ++ [p])
        = (st, drawShapePreview base tool anchor p color) := by
  have hstep : ∀ (c : Canvas) (q : Point),
      handleCanvasMouseMove tool color st c q
        = (st, drawShapePreview base tool anchor q color) := by
    intro c q
    rw [handleCanvasMouseMove, if_neg (by rw [h1]; simp)]
    rcases ht with h | h | h <;> subst h <;> simp [h2, h3]
  intro ps
  induction ps with
  | nil =>
    intro p c
    show handleCanvasMouseMove tool color st c p = _
    exact hstep c p
  | cons q ps ih =>
    intro p c
    show runMoves tool color (handleCanvasMouseMove tool color st c q) (ps ++ [p]) = _
    rw [hstep]
    exact ih p _

/-- C6: for each shape tool, starting a drag at `anchor` snapshots the
raster, and any `N ≥ 1` preview calls during the drag leave the canvas
equal to that pre-shape snapshot plus exactly the one shape spanning
`anchor` and the latest pointer position — previews never accumulate,
and the result only depends on the last point (per-call idempotence). -/
theorem C6_preview_idempotent (tool : Tool) (color : RGBA) (live : Canvas)
    (st0 : DrawState) (anchor p : Point) (ps : List Point)
    (ht : tool = Tool.rectangle ∨ tool = Tool.circle ∨ tool = Tool.highlight) :
    runMoves tool color (handleCanvasMouseDown tool color live st0 anchor) (ps ++ [p])
      = ((handleCanvasMouseDown tool color live st0 anchor).1,
         drawShapePreview live tool anchor p color) := by
  have hdown : handleCanvasMouseDown tool color live st0 anchor
      = ({ st0 with baseImage := some live, shapeStart := some anchor, isDrawing := true },
         live) := by
    rcases ht with h | h | h <;> subst h <;> rw [handleCanvasMouseDown] <;> simp
  rw [hdown]
  exact runMoves_shape tool color anchor live _ ht rfl rfl rfl ps p live

/-- Witness for C6: two preview calls with the rectangle tool equal the
snapshot plus the single rectangle to the last point. -/
theorem C6_preview_idempotent_witness :
    runMoves Tool.rectangle demoColor
        (handleCanvasMouseDown Tool.rectangle demoColor demoCanvas demoIdleState
          { x := 0, y := 0 })
        ([{ x := 1, y := 1 }] ++ [{ x := 2, y := 2 }])
      = ((handleCanvasMouseDown Tool.rectangle demoColor demoCanvas demoIdleState
          { x := 0, y := 0 }).1,
         drawShapePreview demoCanvas Tool.rectangle { x := 0, y := 0 } { x := 2, y := 2 }
           demoColor) :=
  C6_preview_idempotent Tool.rectangle demoColor demoCanvas demoIdleState
    { x := 0, y := 0 } { x := 2, y := 2 } [{ x := 1, y := 1 }] (Or.inl rfl)

theorem map_remark_of_no_items (bs : List TextBox)
    (h : bs.all (fun b => !b.overlayItem) = true) :
    bs.map remarkOverlayItem = bs := by
  induction bs with
  | nil => rfl
  | cons b bs ih =>
    rw [List.all_cons, Bool.and_eq_true] at h
    have hb : b.overlayItem = false := by
      rcases h with ⟨hb1, _⟩
      cases hov : b.overlayItem
      · rfl
      · rw [hov] at hb1
        exact absurd hb1 (by decide)
    rw [List.map_cons, ih h.2, remarkOverlayItem, hb]
    simp

/-- C7: restoring the snapshot produced by capture, on the same page at
the same zoom (wrapper dimensions equal the captured canvas's), is a
lossless round trip: the ink raster keeps its dimensions and every
in-bounds pixel (the PNG data URL is lossless, and the scale is the
identity), and the box list is reproduced with every position, content
and color identical; since no tool-created box carries
`data-overlay-item`, the re-marking pass leaves the set exactly equal. -/
theorem C7_roundtrip (c : Canvas) (bs : List TextBox) (x y k : Nat)
    (hw : 1 ≤ c.width) (hh : 1 ≤ c.height) :
    (restoreAfterCapture c bs).canvas.width = c.width ∧
    (restoreAfterCapture c bs).canvas.height = c.height ∧
    (x < c.width → y < c.height →
      (restoreAfterCapture c bs).canvas.pix x y = c.pix x y) ∧
    (restoreAfterCapture c bs).boxes = bs.map remarkOverlayItem ∧
    ((restoreAfterCapture c bs).boxes[k]?).map
        (fun b => (b.left, b.top, b.content, b.color))
      = (bs[k]?).map (fun b => (b.left, b.top, b.content, b.color)) ∧
    (bs.all (fun b => !b.overlayItem) = true → (restoreAfterCapture c bs).boxes = bs) := by
  have hmw : max 1 c.width = c.width := Nat.max_eq_right hw
  have hmh : max 1 c.height = c.height := Nat.max_eq_right hh
  refine ⟨?_, ?_, ?_, rfl, ?_, ?_⟩
  · show max 1 c.width = c.width
    exact hmw
  · show max 1 c.height = c.height
    exact hmh
  · intro hx hy
    show (if x < max 1 c.width ∧ y < max 1 c.height then
        c.pix (x * c.width / max 1 c.width) (y * c.height / max 1 c.height)
      else RGBA.clear) = c.pix x y
    rw [hmw, hmh, if_pos ⟨hx, hy⟩, Nat.mul_div_cancel x (by omega),
      Nat.mul_div_cancel y (by omega)]
  · show ((bs.map remarkOverlayItem)[k]?).map (fun b => (b.left, b.top, b.content, b.color))
      = (bs[k]?).map (fun b => (b.left, b.top, b.content, b.color))
    rw [List.getElem?_map, Option.map_map]
    congr 1
    funext b
    show (fun b => (b.left, b.top, b.content, b.color)) (remarkOverlayItem b)
      = (b.left, b.top, b.content, b.color)
    rw [remarkOverlayItem]
    by_cases hov : b.overlayItem = true
    · rw [if_pos hov]
    · rw [if_neg hov]
  · intro hall
    exact map_remark_of_no_items bs hall

/-- Witness for C7: the demo canvas with ink plus three boxes
round-trips: dimensions kept, an in-bounds pixel identical, and the box
list exactly reproduced. -/
theorem C7_roundtrip_witness :
    (restoreAfterCapture demoCanvas demoBoxes).canvas.width = demoCanvas.width ∧
    (restoreAfterCapture demoCanvas demoBoxes).canvas.pix 1 1 = demoCanvas.pix 1 1 ∧
    (restoreAfterCapture demoCanvas demoBoxes).boxes = demoBoxes := by
  have H := C7_roundtrip demoCanvas demoBoxes 1 1 0 (by decide) (by decide)
  exact ⟨H.1, H.2.2.1 (by decide) (by decide), H.2.2.2.2.2 (by decide)⟩

/-- C8: the restore `applyOverlayState` always clears both layers
first — on a `null` state both layers end empty, and for any state the
result is independent of the previously shown page's content (only the
canvas's pixel dimensions matter); afterwards, when a draw raster is
present the canvas is sized to the wrapper's live dimensions and the
raster is drawn scaled to them; when markup is present the boxes are
reconstructed from it with the re-marking pass, which makes every
`data-overlay-item` box editable again; absent fields leave the cleared
layer empty. -/
theorem C8_restore_clears_first (wW wH : Nat) (live live2 : LiveLayers)
    (stOpt : Option ViewerOverlayState) (s : ViewerOverlayState)
    (bmp : CapturedBitmap) (bs : List TextBox) (b : TextBox) (x y : Nat) :
    ((applyOverlayState wW wH live none).boxes = [] ∧
      (applyOverlayState wW wH live none).canvas.pix x y = RGBA.clear) ∧
    (live.canvas.width = live2.canvas.width → live.canvas.height = live2.canvas.height →
      applyOverlayState wW wH live stOpt = applyOverlayState wW wH live2 stOpt) ∧
    (s.draw = some bmp →
      (applyOverlayState wW wH live (some s)).canvas.width = max 1 wW ∧
      (applyOverlayState wW wH live (some s)).canvas.height = max 1 wH ∧
      (x < max 1 wW → y < max 1 wH →
        (applyOverlayState wW wH live (some s)).canvas.pix x y
          = bmp.image.pix (x * bmp.image.width / max 1 wW)
              (y * bmp.image.height / max 1 wH))) ∧
    (s.draw = none →
      (applyOverlayState wW wH live (some s)).canvas.pix x y = RGBA.clear) ∧
    (s.textHTML = some bs →
      (applyOverlayState wW wH live (some s)).boxes = bs.map remarkOverlayItem) ∧
    (s.textHTML = none → (applyOverlayState wW wH live (some s)).boxes = []) ∧
    (b.overlayItem = true → (remarkOverlayItem b).editable = true) := by
  refine ⟨⟨rfl, rfl⟩, ?_, ?_, ?_, ?_, ?_, ?_⟩
  · intro h1 h2
    cases stOpt with
    | none =>
      simp only [applyOverlayState, h1, h2]
    | some s2 =>
      cases hd : s2.draw <;> cases htx : s2.textHTML <;>
        simp only [applyOverlayState, hd, htx, h1, h2]
  · intro hd
    simp only [applyOverlayState, hd]
    refine ⟨trivial, trivial, ?_⟩
    intro hx hy
    show (if x < max 1 wW ∧ y < max 1 wH then
        bmp.image.pix (x * bmp.image.width / max 1 wW) (y * bmp.image.height / max 1 wH)
      else RGBA.clear) = _
    rw [if_pos ⟨hx, hy⟩]
  · intro hd
    simp only [applyOverlayState, hd]
  · intro htx
    simp only [applyOverlayState, htx]
  · intro htx
    simp only [applyOverlayState, htx]
  · intro hb
    rw [remarkOverlayItem, if_pos hb]

/-- Witness for C8: restoring `null` clears the box list; restoring the
demo snapshot gives the same result over two different live layers with
equal canvas dimensions; and the restored boxes are the re-marked demo
boxes. -/
theorem C8_restore_clears_first_witness :
    (applyOverlayState 4 4 demoLive none).boxes = [] ∧
    applyOverlayState 4 4 demoLive (some demoViewerState)
      = applyOverlayState 4 4 demoLive2 (some demoViewerState) ∧
    (applyOverlayState 4 4 demoLive (some demoViewerState)).boxes
      = demoBoxes.map remarkOverlayItem := by
  have H := C8_restore_clears_first 4 4 demoLive demoLive2 (some demoViewerState)
    demoViewerState { image := demoCanvas, width := 4, height := 4 } demoBoxes
    { left := 0, top := 0, content := "x", color := "#000000", noteStyle := false, editable := false, overlayItem := true }
    0 0
  exact ⟨H.1.1, H.2.1 (by decide) (by decide), H.2.2.2.2.1 rfl⟩

/-- C9 counterexample: with a stroke and a box drag both in progress,
the global `window` mouseup handler resets only the drawing state — the
select-tool drag flag survives it, so a pointer-up outside the surface
does not terminate an in-progress annotation-box drag. -/
theorem C9_counterexample :
    demoDragState.isDragging = true
      ∧ (windowMouseUp true demoDragState).isDragging = true := ⟨rfl, rfl⟩

/-- C9 (amended): the global mouseup listener terminates every
in-progress pen stroke or shape drag — drawing flag, last point, shape
anchor and snapshot are all reset — but leaves the select-tool drag flag
exactly as it was; an in-progress annotation-box drag is terminated only
by a mouseup delivered to the overlay element itself
(`handleOverlayMouseUp`). -/
theorem C9_global_mouseup (st : DrawState) (hd : st.isDrawing = true) :
    (windowMouseUp true st).isDrawing = false ∧
    (windowMouseUp true st).lastPoint = none ∧
    (windowMouseUp true st).shapeStart = none ∧
    (windowMouseUp true st).baseImage = none ∧
    (windowMouseUp true st).isDragging = st.isDragging ∧
    (handleOverlayMouseUp st).isDragging = false := by
  have hstep : windowMouseUp true st
      = { st with isDrawing := false, lastPoint := none, shapeStart := none, baseImage := none } := by
    rw [windowMouseUp, handleCanvasMouseUp, if_neg (by rw [hd]; simp), if_neg (by simp)]
  rw [hstep]
  refine ⟨rfl, rfl, rfl, rfl, rfl, ?_⟩
  rw [handleOverlayMouseUp]
  by_cases hdr : st.isDragging = true
  · rw [if_pos hdr]
  · rw [if_neg hdr]
    simp at hdr
    exact hdr

/-- Witness for C9 (amended) at the concrete in-progress state. -/
theorem C9_global_mouseup_witness :
    (windowMouseUp true demoDragState).isDrawing = false ∧
    (windowMouseUp true demoDragState).lastPoint = none ∧
    (windowMouseUp true demoDragState).shapeStart = none ∧
    (windowMouseUp true demoDragState).baseImage = none ∧
    (windowMouseUp true demoDragState).isDragging = demoDragState.isDragging ∧
    (handleOverlayMouseUp demoDragState).isDragging = false :=
  C9_global_mouseup demoDragState rfl
